import Mathlib

/-!
# Verification of the MERQURY.FK `ASMplot` assembly-spectra tool

This development embeds the `ASMplot` command-line driver (`src/ASMplot.c`)
and, where the plotting engine itself (`asm_plotter.c`, `libfastk`) is not
part of the sources at hand, models the Venn-classification histogram engine
and the axis scale resolver from the specification.  Theorems at the end
settle the frozen claims about the program.
-/

/-! ## The merge classifier and histogram accumulator

Modelled from the spec: the k-way merge classifier and histogram accumulator
live in `asm_plotter.c`, which is not among the sources; the definitions in
this section follow §4.2/§4.3 of the specification.  K-mer keys are opaque
totally ordered values, modelled as `Nat`; a table is a strictly increasing
association list of (key, multiplicity) pairs, an assembly table a strictly
increasing list of keys. -/

/-- Membership category of a merged k-mer for the two-assembly Venn partition
(§3 of the spec).  `classify` is only applied to keys present in at least one
stream, so the all-absent bitmask never arises; it is mapped to `readsOnly`
as an arbitrary default. -/
inductive Cat where
  | readsOnly
  | asm1Only
  | asm2Only
  | readsAsm1
  | readsAsm2
  | asm1Asm2
  | allThree
deriving DecidableEq, Fintype

/-- Membership category for the one-assembly case (§3 of the spec). -/
inductive Cat1 where
  | readsOnly
  | assemblyOnly
  | shared
deriving DecidableEq, Fintype

/-- Modelled from the spec: the category is derived deterministically from the
membership bitmask {in-reads, in-asm1, in-asm2} (§4.2). -/
def classify : Bool → Bool → Bool → Cat
  | true,  false, false => .readsOnly
  | false, true,  false => .asm1Only
  | false, false, true  => .asm2Only
  | true,  true,  false => .readsAsm1
  | true,  false, true  => .readsAsm2
  | false, true,  true  => .asm1Asm2
  | true,  true,  true  => .allThree
  | false, false, false => .readsOnly

/-- Modelled from the spec: one-assembly membership bitmask to category. -/
def classify1 : Bool → Bool → Cat1
  | true,  false => .readsOnly
  | true,  true  => .shared
  | false, _     => .assemblyOnly

/-- Merge of two strictly increasing key streams into the strictly increasing
stream of their union: the kernel of the k-way merge of §4.2 (two streams
"tie" only on exact key equality, in which case both advance and the key is
emitted once). -/
def mergeKeys : List Nat → List Nat → List Nat
  | [], ys => ys
  | x :: xs, [] => x :: xs
  | x :: xs, y :: ys =>
    if x < y then x :: mergeKeys xs (y :: ys)
    else if y < x then y :: mergeKeys (x :: xs) ys
    else x :: mergeKeys xs ys
termination_by xs ys => xs.length + ys.length

/-- Keys of a reads table (association list of key–multiplicity pairs). -/
def keysOf (r : List (Nat × Nat)) : List Nat :=
  r.map Prod.fst

/-- Modelled from the spec: the multiplicity recorded for a merged key is the
reads-stream count when the key is present there, else the sentinel 0
("absent from reads", §4.2). -/
def multOf : List (Nat × Nat) → Nat → Nat
  | [], _ => 0
  | (k, m) :: r, q => if q = k then m else multOf r q

/-- Modelled from the spec: the observation stream of the two-assembly k-way
merge classifier — one (multiplicity, category) pair per distinct key of the
union of the three input tables, in increasing key order (§4.2).  The
one-assembly configuration is the special case `a2 = []`. -/
def observations (r : List (Nat × Nat)) (a1 a2 : List Nat) : List (Nat × Cat) :=
  (mergeKeys (mergeKeys (keysOf r) a1) a2).map fun k =>
    (multOf r k, classify (decide (k ∈ keysOf r)) (decide (k ∈ a1)) (decide (k ∈ a2)))

/-- Modelled from the spec: observation stream of the one-assembly merge,
with the collapsed three-way category set (§3, §4.2). -/
def observations1 (r : List (Nat × Nat)) (a : List Nat) : List (Nat × Cat1) :=
  (mergeKeys (keysOf r) a).map fun k =>
    (multOf r k, classify1 (decide (k ∈ keysOf r)) (decide (k ∈ a)))

/-- Modelled from the spec: multiplicities above the cap are folded into the
final overflow bin (§3). -/
def clampBin (cap m : Nat) : Nat :=
  min m cap

/-- Modelled from the spec: one cell of the HistogramMatrix — the number of
distinct k-mers whose (clamped) multiplicity bin is `b` and whose category is
`c` (§3, §4.3). -/
def histCell (cap : Nat) (obs : List (Nat × Cat)) (b : Nat) (c : Cat) : Nat :=
  (obs.filter fun o => decide (clampBin cap o.1 = b ∧ o.2 = c)).length

/-- Sum of all cells of the HistogramMatrix (bins `0 .. cap`, all seven
categories). -/
def histTotal (cap : Nat) (obs : List (Nat × Cat)) : Nat :=
  ∑ b ∈ Finset.range (cap + 1), ∑ c : Cat, histCell cap obs b c

theorem mem_mergeKeys (k : Nat) (xs ys : List Nat) :
    k ∈ mergeKeys xs ys ↔ k ∈ xs ∨ k ∈ ys := by
  induction xs, ys using mergeKeys.induct with
  | case1 ys => simp [mergeKeys]
  | case2 x xs => simp [mergeKeys]
  | case3 x xs y ys hxy ih =>
    simp only [mergeKeys, if_pos hxy, List.mem_cons, ih]
    tauto
  | case4 x xs y ys hxy hyx ih =>
    simp only [mergeKeys, if_neg hxy, if_pos hyx, List.mem_cons, ih]
    tauto
  | case5 x xs y ys hxy hyx ih =>
    have hxy' : x = y := le_antisymm (not_lt.mp hyx) (not_lt.mp hxy)
    subst hxy'
    simp only [mergeKeys, if_neg hxy, List.mem_cons, ih]
    tauto

theorem sorted_mergeKeys (xs ys : List Nat)
    (hx : xs.Sorted (· < ·)) (hy : ys.Sorted (· < ·)) :
    (mergeKeys xs ys).Sorted (· < ·) := by
  induction xs, ys using mergeKeys.induct with
  | case1 ys => simpa [mergeKeys] using hy
  | case2 x xs => simpa [mergeKeys] using hx
  | case3 x xs y ys hxy ih =>
    rw [List.sorted_cons] at hx hy
    simp only [mergeKeys, if_pos hxy, List.sorted_cons]
    refine ⟨fun b hb => ?_, ih hx.2 (List.sorted_cons.mpr hy)⟩
    rcases (mem_mergeKeys b xs (y :: ys)).mp hb with h | h
    · exact hx.1 b h
    · rcases List.mem_cons.mp h with rfl | h
      · exact hxy
      · exact hxy.trans (hy.1 b h)
  | case4 x xs y ys hxy hyx ih =>
    rw [List.sorted_cons] at hx hy
    simp only [mergeKeys, if_neg hxy, if_pos hyx, List.sorted_cons]
    refine ⟨fun b hb => ?_, ih (List.sorted_cons.mpr hx) hy.2⟩
    rcases (mem_mergeKeys b (x :: xs) ys).mp hb with h | h
    · rcases List.mem_cons.mp h with rfl | h
      · exact hyx
      · exact hyx.trans (hx.1 b h)
    · exact hy.1 b h
  | case5 x xs y ys hxy hyx ih =>
    have hxy' : x = y := le_antisymm (not_lt.mp hyx) (not_lt.mp hxy)
    rw [List.sorted_cons] at hx hy
    simp only [mergeKeys, if_neg hxy, if_neg hyx, List.sorted_cons]
    refine ⟨fun b hb => ?_, ih hx.2 hy.2⟩
    rcases (mem_mergeKeys b xs ys).mp hb with h | h
    · exact hx.1 b h
    · exact hxy' ▸ hy.1 b h

theorem histCell_cons (cap : Nat) (o : Nat × Cat) (obs : List (Nat × Cat)) (b : Nat) (c : Cat) :
    histCell cap (o :: obs) b c
      = (if clampBin cap o.1 = b ∧ o.2 = c then 1 else 0) + histCell cap obs b c := by
  by_cases h : clampBin cap o.1 = b ∧ o.2 = c
  · simp [histCell, List.filter_cons, h, Nat.add_comm]
  · simp [histCell, List.filter_cons, h]

theorem histTotal_nil (cap : Nat) : histTotal cap [] = 0 := by
  simp [histTotal, histCell]

theorem histTotal_cons (cap : Nat) (o : Nat × Cat) (obs : List (Nat × Cat)) :
    histTotal cap (o :: obs) = histTotal cap obs + 1 := by
  unfold histTotal
  have hsplit : ∀ b, ∑ c : Cat, histCell cap (o :: obs) b c
      = (∑ c : Cat, (if clampBin cap o.1 = b ∧ o.2 = c then 1 else 0))
        + ∑ c : Cat, histCell cap obs b c := by
    intro b
    rw [← Finset.sum_add_distrib]
    exact Finset.sum_congr rfl fun c _ => histCell_cons cap o obs b c
  have hinner : ∀ b, (∑ c : Cat, (if clampBin cap o.1 = b ∧ o.2 = c then 1 else 0))
      = if clampBin cap o.1 = b then 1 else 0 := by
    intro b
    by_cases hb : clampBin cap o.1 = b
    · simp only [hb, true_and]
      rw [Fintype.sum_ite_eq o.2 fun _ => (1 : Nat)]
      simp
    · simp [hb]
  have houter : (∑ b ∈ Finset.range (cap + 1), if clampBin cap o.1 = b then (1 : Nat) else 0) = 1 := by
    rw [Finset.sum_ite_eq (Finset.range (cap + 1)) (clampBin cap o.1) fun _ => (1 : Nat)]
    have : clampBin cap o.1 ∈ Finset.range (cap + 1) := by
      simp [clampBin, Nat.lt_succ_iff]
    simp [this]
  calc ∑ b ∈ Finset.range (cap + 1), ∑ c : Cat, histCell cap (o :: obs) b c
      = ∑ b ∈ Finset.range (cap + 1),
          ((if clampBin cap o.1 = b then 1 else 0) + ∑ c : Cat, histCell cap obs b c) := by
        exact Finset.sum_congr rfl fun b _ => by rw [hsplit b, hinner b]
    _ = (∑ b ∈ Finset.range (cap + 1), if clampBin cap o.1 = b then (1 : Nat) else 0)
          + ∑ b ∈ Finset.range (cap + 1), ∑ c : Cat, histCell cap obs b c := by
        rw [Finset.sum_add_distrib]
    _ = _ := by rw [houter]; omega

theorem histTotal_eq_length (cap : Nat) (obs : List (Nat × Cat)) :
    histTotal cap obs = obs.length := by
  induction obs with
  | nil => exact histTotal_nil cap
  | cons o obs ih => rw [histTotal_cons, ih, List.length_cons]

/-- Claim C1: After the merge fully drains all input streams, the sum over all
cells of the HistogramMatrix equals the number of distinct keys in the union
of all input tables: every distinct k-mer lands in exactly one
(multiplicity bin, category) cell, none is counted twice, none is dropped. -/
theorem hist_total_eq_card_union (r : List (Nat × Nat)) (a1 a2 : List Nat) (cap : Nat)
    (hr : (keysOf r).Sorted (· < ·)) (h1 : a1.Sorted (· < ·)) (h2 : a2.Sorted (· < ·)) :
    histTotal cap (observations r a1 a2)
      = ((keysOf r).toFinset ∪ a1.toFinset ∪ a2.toFinset).card := by
  have hm : (mergeKeys (mergeKeys (keysOf r) a1) a2).Sorted (· < ·) :=
    sorted_mergeKeys _ _ (sorted_mergeKeys _ _ hr h1) h2
  have hnd : (mergeKeys (mergeKeys (keysOf r) a1) a2).Nodup := hm.nodup
  rw [histTotal_eq_length, observations, List.length_map,
      ← List.toFinset_card_of_nodup hnd]
  congr 1
  ext k
  simp [mem_mergeKeys, or_assoc]

theorem hist_total_eq_card_union_witness :
    histTotal 10 (observations [(1, 5), (2, 12), (3, 40)] [2, 3, 4] []) = 4 :=
  (hist_total_eq_card_union [(1, 5), (2, 12), (3, 40)] [2, 3, 4] [] 10
    (by decide) (by decide) (by decide)).trans (by decide)

theorem multOf_eq_zero_of_not_mem (r : List (Nat × Nat)) (k : Nat)
    (hk : k ∉ keysOf r) : multOf r k = 0 := by
  induction r with
  | nil => rfl
  | cons p r ih =>
    obtain ⟨a, m⟩ := p
    simp only [keysOf, List.map_cons, List.mem_cons, not_or] at hk
    simp only [multOf, if_neg hk.1]
    exact ih hk.2

/-- Claim C2: For the one-assembly merge with reads table {A:5, B:12, C:40}
(keys A=1, B=2, C=3, D=4) and assembly table {B, C, D}, the classifier emits
exactly A as ReadsOnly at multiplicity 5, B as Shared at 12, C as Shared at
40, and D as AssemblyOnly at multiplicity 0; and in general every merged key
absent from the reads stream is recorded with the bin-0 sentinel
multiplicity. -/
theorem one_assembly_scenario_and_absent_bin_zero :
    observations1 [(1, 5), (2, 12), (3, 40)] [2, 3, 4]
        = [(5, Cat1.readsOnly), (12, Cat1.shared), (40, Cat1.shared), (0, Cat1.assemblyOnly)]
      ∧ ∀ (r : List (Nat × Nat)) (k : Nat), k ∉ keysOf r → multOf r k = 0 :=
  ⟨by norm_num [observations1, mergeKeys, keysOf, multOf, classify1],
   multOf_eq_zero_of_not_mem⟩

theorem one_assembly_scenario_witness : multOf [(1, 5)] 2 = 0 :=
  one_assembly_scenario_and_absent_bin_zero.2 [(1, 5)] 2 (by decide)

/-! ## The scale resolver

Modelled from the spec: the axis Scale Resolver of §4.4 lives in
`asm_plotter.c`, which is not among the sources.  `resolveMax` resolves one
axis maximum from an optional absolute value, a relative factor (exact
rational arithmetic) and the detected aggregate peak position (or, for the y
axis, the peak count value). -/

/-- Modelled from the spec: the minimum default extent used when the
histogram is empty (§4.4); the spec only demands a strictly positive
constant. -/
def minDefaultExtent : Nat := 1

/-- Modelled from the spec: the Scale Resolver policy of §4.4 — an explicit
absolute maximum is used verbatim; otherwise the resolved maximum is
`ceil(rel × peak)`, falling back to the minimum default extent when the peak
is zero (empty histogram). -/
def resolveMax (absMax : Option Nat) (rel : ℚ) (peak : Nat) : Nat :=
  match absMax with
  | some v => v
  | none => if peak = 0 then minDefaultExtent else (Int.ceil (rel * peak)).toNat

/-- Claim C3: With no absolute maximum supplied, the Scale Resolver computes
`xMax = ceil(xRel × peakMultiplicity)`; in particular with `xRel = 2.1` and
aggregate peak at multiplicity 30 the resolved maximum is 63. -/
theorem resolve_xmax_ceil_of_rel :
    (∀ (rel : ℚ) (peak : Nat), peak ≠ 0 →
        resolveMax none rel peak = (Int.ceil (rel * peak)).toNat)
      ∧ resolveMax none (21 / 10) 30 = 63 := by
  constructor
  · intro rel peak hp
    simp [resolveMax, hp]
  · have h : resolveMax none (21 / 10) 30 = (Int.ceil ((21 / 10 : ℚ) * (30 : Nat))).toNat := by
      simp [resolveMax]
    rw [h]
    norm_num
    rfl

theorem resolve_xmax_ceil_of_rel_witness :
    resolveMax none (21 / 10) 30 = (Int.ceil ((21 / 10 : ℚ) * (30 : Nat))).toNat :=
  resolve_xmax_ceil_of_rel.1 (21 / 10) 30 (by decide)

/-- Claim C4: An explicit absolute maximum is used verbatim and takes
precedence over the relative factor; for positive relative factors (and
positive explicit values, as the configuration parser enforces) the resolved
maximum is strictly positive for every histogram; and an empty histogram
(zero peak) falls back to the minimum default extent instead of a zero-sized
plot. -/
theorem resolve_scales_positive_precedence_default :
    (∀ (v : Nat) (rel : ℚ) (peak : Nat), resolveMax (some v) rel peak = v)
      ∧ (∀ (absMax : Option Nat) (rel : ℚ) (peak : Nat),
          (∀ v, absMax = some v → 0 < v) → 0 < rel → 0 < resolveMax absMax rel peak)
      ∧ ∀ rel : ℚ, resolveMax none rel 0 = minDefaultExtent := by
  refine ⟨fun v rel peak => rfl, fun absMax rel peak habs hrel => ?_, fun rel => rfl⟩
  match absMax with
  | some v => exact habs v rfl
  | none =>
    by_cases hp : peak = 0
    · simp [resolveMax, hp, minDefaultExtent]
    · simp only [resolveMax, if_neg hp]
      have hq : (0 : ℚ) < rel * peak :=
        mul_pos hrel (by exact_mod_cast Nat.pos_of_ne_zero hp)
      have hc := Int.ceil_pos.mpr hq
      omega

theorem resolve_scales_positive_witness : 0 < resolveMax (some 7) 2 30 :=
  resolve_scales_positive_precedence_default.2.1 (some 7) 2 30
    (fun v h => by injection h with h; omega) (by norm_num)

/-! ## The driver (`main` of `src/ASMplot.c`)

Configuration parsing, the reads-table header check and the orchestration of
assembly-table construction and plotting, embedded from `src/ASMplot.c`.
The run is modelled as a staged pure function returning the final result,
the trace of externally visible I/O events and the stderr diagnostics. -/

/-- Error taxonomy of the driver: each constructor corresponds to one fatal
`exit(1)` site of `src/ASMplot.c`. -/
inductive Err where
  | invalidScale
  | argNotPositive
  | tableUnreadable (name : String)
  | kmerMismatch (kmer : Nat) (name : String) (lmer : Nat)
deriving DecidableEq

/-- Recognized command-line options of `ASMplot` after lexing; numeric
option arguments arrive already parsed (the `ARG_REAL`/`ARG_POSITIVE`
lexing itself is external argument handling). -/
inductive Opt where
  | w (v : ℚ)
  | h (v : ℚ)
  | x (v : ℚ)
  | y (v : ℚ)
  | X (v : Int)
  | Y (v : Int)
  | T (v : Int)
  | P (dir : String)
  | pdf
  | vFlag
  | lFlag
  | fFlag
  | sFlag
  | zFlag
deriving DecidableEq

/-- Driver configuration, mirroring the locals of `main` in `src/ASMplot.c`
(lines 51–64): verbosity and style flags, plot dimensions, relative and
absolute axis maxima (`0` meaning the absolute maximum is unset, as in the C
code), thread count and sort path. -/
structure Config where
  verbose : Bool
  line : Bool
  fill : Bool
  stack : Bool
  zgram : Bool
  pdf : Bool
  xdim : ℚ
  ydim : ℚ
  xrel : ℚ
  yrel : ℚ
  xmax : Nat
  ymax : Nat
  nthreads : Nat
  sortPath : String
deriving DecidableEq

/-- Defaults set in `main` before option processing (lines 74–82);
`ARG_INIT` clears all flag bits. -/
def defaultConfig : Config :=
  { verbose := false, line := false, fill := false, stack := false,
    zgram := false, pdf := false,
    xdim := 6, ydim := 9 / 2, xrel := 21 / 10, yrel := 11 / 10,
    xmax := 0, ymax := 0, nthreads := 4, sortPath := "/tmp" }

/-- One step of the option-processing loop of `main` (lines 85–135):
`-x`/`-y` reject a non-positive relative scale factor with a fatal error
(lines 105–118), and the `ARG_POSITIVE` macro rejects non-positive `-X`,
`-Y` and `-T` arguments (lines 122–134). -/
def applyOpt (c : Config) : Opt → Except Err Config
  | .w v => .ok { c with xdim := v }
  | .h v => .ok { c with ydim := v }
  | .x v => if v ≤ 0 then .error .invalidScale else .ok { c with xrel := v }
  | .y v => if v ≤ 0 then .error .invalidScale else .ok { c with yrel := v }
  | .X v => if v ≤ 0 then .error .argNotPositive else .ok { c with xmax := v.toNat }
  | .Y v => if v ≤ 0 then .error .argNotPositive else .ok { c with ymax := v.toNat }
  | .T v => if v ≤ 0 then .error .argNotPositive else .ok { c with nthreads := v.toNat }
  | .P d => .ok { c with sortPath := d }
  | .pdf => .ok { c with pdf := true }
  | .vFlag => .ok { c with verbose := true }
  | .lFlag => .ok { c with line := true }
  | .fFlag => .ok { c with fill := true }
  | .sFlag => .ok { c with stack := true }
  | .zFlag => .ok { c with zgram := true }

/-- The option loop of `main`: options are processed left to right and the
first failing option aborts the program (`exit(1)`). -/
def parseOptsFrom (c : Config) : List Opt → Except Err Config
  | [] => .ok c
  | o :: os =>
    match applyOpt c o with
    | .error e => .error e
    | .ok c' => parseOptsFrom c' os

/-- Full option parse starting from the defaults. -/
def parseOpts (os : List Opt) : Except Err Config :=
  parseOptsFrom defaultConfig os

/-- Lines 176–177 of `src/ASMplot.c`:
`if (LINE+FILL+STACK == 0) LINE = FILL = STACK = 1;` — an empty style
request selects all three styles. -/
def styleDefault (c : Config) : Config :=
  if c.line = false ∧ c.fill = false ∧ c.stack = false then
    { c with line := true, fill := true, stack := true }
  else c

/-- `check_table` (lines 30–48 of `src/ASMplot.c`).  `fs` models the
filesystem, mapping a table file name to the k-mer length stored in its
header, or `none` when the file cannot be opened.  A table that cannot be
opened is fatal, and a header k-mer length differing from a nonzero expected
length `lmer` is fatal; with `lmer = 0` the header length is accepted and
returned. -/
def check_table (fs : String → Option Nat) (name : String) (lmer : Nat) : Except Err Nat :=
  match fs name with
  | none => .error (.tableUnreadable name)
  | some kmer =>
    if lmer ≠ 0 ∧ kmer ≠ lmer then .error (.kmerMismatch kmer name lmer)
    else .ok kmer

/-- Externally visible side effects of a run: opening a table file, building
an assembly k-mer table with FastK at a given k-mer length, and writing the
plot output via `asm_plot`. -/
inductive Event where
  | openTable (name : String)
  | buildTable (name : String) (kmer : Nat)
  | plotOut (name : String)
deriving DecidableEq

/-- The data handed to `asm_plot` (line 218): the output name, the k-mer
lengths of the reads table and of each just-built assembly table, and the
style/format selections. -/
structure Artifact where
  outName : String
  tableKmers : List Nat
  line : Bool
  fill : Bool
  stack : Bool
  pdf : Bool
  zgram : Bool
deriving DecidableEq

/-- Result of a run: the final outcome (a fatal error or the `asm_plot`
call), the I/O event trace, and the diagnostic lines written to stderr. -/
structure RunOut where
  result : Except Err Artifact
  events : List Event
  log : List String

/-- The work of `main` after argument processing (lines 187–229): check the
reads table header (with expected length 0, i.e. unconstrained), build one
k-mer table per assembly with `FastK -k<KMER>` so that every assembly table
is constructed at exactly the reads table's k-mer length (line 211), and
call `asm_plot` (line 218).  With `-v`, progress diagnostics go to stderr
(lines 208–209 and 215–216). -/
def runWithConfig (c : Config) (reads asm1 : String) (asm2 : Option String)
    (out : String) (fs : String → Option Nat) : RunOut :=
  match check_table fs (reads ++ ".ktab") 0 with
  | .error e => ⟨.error e, [.openTable (reads ++ ".ktab")], []⟩
  | .ok kmer =>
    ⟨.ok ⟨out, kmer :: (asm1 :: asm2.toList).map fun _ => kmer,
          c.line, c.fill, c.stack, c.pdf, c.zgram⟩,
     .openTable (reads ++ ".ktab")
       :: ((asm1 :: asm2.toList).map fun a => Event.buildTable a kmer)
       ++ [.plotOut out],
     (if c.verbose then
        (asm1 :: asm2.toList).map fun a => "  Making k-mer table for assembly " ++ a
      else [])
       ++ if c.verbose then ["  Making Venn histograms and plotting"] else []⟩

/-- The whole driver: parse the options (aborting on the first bad one,
before any file is touched), apply the style default of lines 176–177, then
run. -/
def runASMplot (os : List Opt) (reads asm1 : String) (asm2 : Option String)
    (out : String) (fs : String → Option Nat) : RunOut :=
  match parseOpts os with
  | .error e => ⟨.error e, [], []⟩
  | .ok c => runWithConfig (styleDefault c) reads asm1 asm2 out fs

theorem parseOptsFrom_append_ok (pre : List Opt) (c0 c : Config) (rest : List Opt)
    (h : parseOptsFrom c0 pre = .ok c) :
    parseOptsFrom c0 (pre ++ rest) = parseOptsFrom c rest := by
  induction pre generalizing c0 with
  | nil =>
    simp only [parseOptsFrom, Except.ok.injEq] at h
    subst h
    rfl
  | cons o os ih =>
    rw [List.cons_append]
    simp only [parseOptsFrom] at h ⊢
    cases ha : applyOpt c0 o with
    | error e => rw [ha] at h; simp at h
    | ok c1 => rw [ha] at h; exact ih c1 h

/-- Claim C5: a non-positive `-x` or `-y` relative scaling factor is a fatal
configuration error (the `InvalidScale` case of the taxonomy), raised during
option processing — when the options before it parse fine, the whole run
stops with exactly that error and an empty I/O trace: no table is opened and
nothing is read or written. -/
theorem invalid_scale_fatal_at_config (pre post : List Opt) (c : Config) (v : ℚ)
    (o : Opt) (reads asm1 : String) (asm2 : Option String) (out : String)
    (fs : String → Option Nat)
    (hv : v ≤ 0) (hpre : parseOpts pre = .ok c) (ho : o = Opt.x v ∨ o = Opt.y v) :
    runASMplot (pre ++ o :: post) reads asm1 asm2 out fs
      = ⟨.error .invalidScale, [], []⟩ := by
  have hfail : applyOpt c o = .error .invalidScale := by
    rcases ho with rfl | rfl
    · simp [applyOpt, hv]
    · simp [applyOpt, hv]
  have hparse : parseOpts (pre ++ o :: post) = .error .invalidScale := by
    rw [parseOpts, parseOptsFrom_append_ok pre defaultConfig c _ hpre]
    simp [parseOptsFrom, hfail]
  simp [runASMplot, hparse]

theorem invalid_scale_witness :
    runASMplot [Opt.x 0] "r" "a" none "o" (fun _ => some 21)
      = ⟨.error .invalidScale, [], []⟩ :=
  invalid_scale_fatal_at_config [] [] defaultConfig 0 (Opt.x 0) "r" "a" none "o"
    (fun _ => some 21) (le_refl 0) rfl (Or.inl rfl)

/-- Claim C6: when the declared reads k-mer table cannot be opened, the run
aborts with a fatal `TableUnreadable` error naming the table; the only I/O
event is the failed open — no assembly table is built, no merge work
happens, and no output artifact is produced. -/
theorem table_unreadable_fatal_before_merge (os : List Opt) (c : Config)
    (reads asm1 : String) (asm2 : Option String) (out : String)
    (fs : String → Option Nat)
    (hp : parseOpts os = .ok c) (hf : fs (reads ++ ".ktab") = none) :
    runASMplot os reads asm1 asm2 out fs
      = ⟨.error (.tableUnreadable (reads ++ ".ktab")),
         [.openTable (reads ++ ".ktab")], []⟩ := by
  simp [runASMplot, hp, runWithConfig, check_table, hf]

theorem table_unreadable_witness :
    runASMplot [] "r" "a" none "o" (fun _ => none)
      = ⟨.error (.tableUnreadable ("r" ++ ".ktab")),
         [.openTable ("r" ++ ".ktab")], []⟩ :=
  table_unreadable_fatal_before_merge [] defaultConfig "r" "a" none "o"
    (fun _ => none) rfl rfl

/-- Claim C7: all k-mer tables participating in one invocation share the
same k-mer length — the reads table's header length is read first and every
assembly table is then built by FastK at exactly that length, so the tables
handed to `asm_plot` all agree — and `check_table` turns any header length
that disagrees with a nonzero expected length into a fatal mismatch error
before any merge work. -/
theorem kmer_lengths_agree_and_mismatch_fatal :
    (∀ (c : Config) (reads asm1 : String) (asm2 : Option String) (out : String)
        (fs : String → Option Nat) (art : Artifact),
        (runWithConfig c reads asm1 asm2 out fs).result = .ok art →
        ∀ k1 ∈ art.tableKmers, ∀ k2 ∈ art.tableKmers, k1 = k2)
      ∧ ∀ (fs : String → Option Nat) (name : String) (lmer kmer : Nat),
          fs name = some kmer → lmer ≠ 0 → kmer ≠ lmer →
          check_table fs name lmer = .error (.kmerMismatch kmer name lmer) := by
  constructor
  · intro c reads asm1 asm2 out fs art hart k1 h1 k2 h2
    rw [runWithConfig] at hart
    cases hct : check_table fs (reads ++ ".ktab") 0 with
    | error e => rw [hct] at hart; simp at hart
    | ok kmer =>
      rw [hct] at hart
      simp only [Except.ok.injEq] at hart
      subst hart
      simp only [List.mem_cons, List.mem_map] at h1 h2
      rcases h1 with rfl | ⟨a, _, rfl⟩ <;> rcases h2 with rfl | ⟨b, _, rfl⟩ <;> rfl
  · intro fs name lmer kmer hfs hl hk
    simp [check_table, hfs, hl, hk]

theorem kmer_mismatch_witness :
    check_table (fun _ => some 21) "t.ktab" 31 = .error (.kmerMismatch 21 "t.ktab" 31) :=
  kmer_lengths_agree_and_mismatch_fatal.2 (fun _ => some 21) "t.ktab" 31 21 rfl
    (by decide) (by decide)

/-- Claim C8: when no plot style is requested (`-l`, `-f`, `-s` all absent)
the driver selects all three styles, and in every case the effective style
set is non-empty. -/
theorem empty_style_request_renders_all :
    (∀ c : Config, c.line = false → c.fill = false → c.stack = false →
        (styleDefault c).line = true ∧ (styleDefault c).fill = true
          ∧ (styleDefault c).stack = true)
      ∧ ∀ c : Config,
          ((styleDefault c).line || (styleDefault c).fill || (styleDefault c).stack) = true := by
  constructor
  · intro c hl hf hs
    simp [styleDefault, hl, hf, hs]
  · intro c
    cases hl : c.line <;> cases hf : c.fill <;> cases hs : c.stack <;>
      simp [styleDefault, hl, hf, hs]

theorem empty_style_witness :
    (styleDefault defaultConfig).line = true ∧ (styleDefault defaultConfig).fill = true
      ∧ (styleDefault defaultConfig).stack = true :=
  empty_style_request_renders_all.1 defaultConfig rfl rfl rfl

theorem applyOpt_verbose (c : Config) (o : Opt) :
    applyOpt { c with verbose := true } o
      = Except.map (fun c' => { c' with verbose := true }) (applyOpt c o) := by
  cases o <;>
    first
      | (simp [applyOpt, Except.map]; done)
      | (rename_i v; by_cases h : v ≤ 0 <;> simp [applyOpt, h, Except.map])

theorem parseOptsFrom_verbose (os : List Opt) (c : Config) :
    parseOptsFrom { c with verbose := true } os
      = Except.map (fun c' => { c' with verbose := true }) (parseOptsFrom c os) := by
  induction os generalizing c with
  | nil => rfl
  | cons o os ih =>
    simp only [parseOptsFrom, applyOpt_verbose]
    cases applyOpt c o with
    | error e => rfl
    | ok c1 => exact ih c1

theorem styleDefault_verbose (c : Config) :
    styleDefault { c with verbose := true } = { styleDefault c with verbose := true } := by
  by_cases h : c.line = false ∧ c.fill = false ∧ c.stack = false <;>
    simp [styleDefault, h]

theorem runWithConfig_verbose (c : Config) (b : Bool) (reads asm1 : String)
    (asm2 : Option String) (out : String) (fs : String → Option Nat) :
    (runWithConfig { c with verbose := b } reads asm1 asm2 out fs).result
        = (runWithConfig c reads asm1 asm2 out fs).result
      ∧ (runWithConfig { c with verbose := b } reads asm1 asm2 out fs).events
        = (runWithConfig c reads asm1 asm2 out fs).events := by
  cases hct : check_table fs (reads ++ ".ktab") 0 <;>
    simp [runWithConfig, hct]

/-- Claim C9: two runs on identical inputs whose options differ only in the
verbosity flag produce the same final result (artifact or error) and the
same I/O event trace; the flag only changes the stderr diagnostic log. -/
theorem verbosity_no_semantic_effect (os : List Opt) (reads asm1 : String)
    (asm2 : Option String) (out : String) (fs : String → Option Nat) :
    (runASMplot (Opt.vFlag :: os) reads asm1 asm2 out fs).result
        = (runASMplot os reads asm1 asm2 out fs).result
      ∧ (runASMplot (Opt.vFlag :: os) reads asm1 asm2 out fs).events
        = (runASMplot os reads asm1 asm2 out fs).events := by
  have hparse : parseOpts (Opt.vFlag :: os)
      = Except.map (fun c' => { c' with verbose := true }) (parseOpts os) := by
    have h0 : parseOpts (Opt.vFlag :: os)
        = parseOptsFrom { defaultConfig with verbose := true } os := rfl
    rw [h0, parseOptsFrom_verbose]
    rfl
  simp only [runASMplot, hparse]
  cases parseOpts os with
  | error e => simp [Except.map]
  | ok c =>
    simp only [Except.map]
    rw [styleDefault_verbose]
    exact runWithConfig_verbose (styleDefault c) true reads asm1 asm2 out fs

/-! ## Assembly-name suffix stripping

The loop at lines 202–206 of `src/ASMplot.c` removes a recognized extension
from each assembly argument before its k-mer table is built:

`len = strlen(ASM[i]) - strlen(suffix[j]); if (strcmp(ASM[i]+len,suffix[j]) == 0) ...`

`len` is a C `int`; the subtraction is modelled exactly in `Int`.  The
comparison `strcmp(ASM[i]+len, suffix[j])` reads the byte at offset `len`
of the argument string first, for every one of the nine suffixes,
unconditionally. -/

/-- The nine recognized suffixes (line 188 of `src/ASMplot.c`). -/
def suffixes : List (List Char) :=
  [".gz", ".fa", ".fq", ".fasta", ".fastq", ".db", ".sam", ".bam", ".cram"].map
    String.toList

/-- Line 203 of `src/ASMplot.c`: the offset `len` at which the suffix
comparison starts reading the argument string, computed in `Int` exactly as
the C `int` arithmetic computes it. -/
def stripCmpIndex (s suf : List Char) : Int :=
  (s.length : Int) - (suf.length : Int)

/-- An offset into a NUL-terminated C string whose contents are `s` is an
in-bounds read when it lies between 0 and the terminating NUL byte (offset
`s.length`) inclusive. -/
def readInBounds (s : List Char) (i : Int) : Prop :=
  0 ≤ i ∧ i ≤ (s.length : Int)

/-- Claim C10 fails on the code: for the one-character assembly argument
"a" the very first candidate suffix ".gz" makes the loop compute
`len = 1 - 3 = -2` and the `strcmp` then starts reading two bytes before
the start of the argument string — an out-of-bounds read, because the loop
body performs the comparison for every suffix unconditionally, even when
the argument is shorter than the suffix. -/
theorem strip_reads_out_of_bounds :
    String.toList ".gz" ∈ suffixes
      ∧ stripCmpIndex (String.toList "a") (String.toList ".gz") = -2
      ∧ ¬ readInBounds (String.toList "a")
          (stripCmpIndex (String.toList "a") (String.toList ".gz")) := by
  refine ⟨by simp [suffixes], by decide, ?_⟩
  intro hin
  have h2 : stripCmpIndex (String.toList "a") (String.toList ".gz") = -2 := by decide
  rw [h2] at hin
  exact absurd hin.1 (by decide)
